import Mathlib

/-
Verification development for a composable storage-abstraction library
(storage combinators: in-memory store, atomic file store, mapping /
caching / routing / logging combinators).

The definitions below are a shallow embedding of the Python source
(src/base.py).  Stateful stores are modelled by explicit state passing:
an in-memory dictionary is an association list keyed by (scheme, path),
a filesystem is an association list from path strings to file contents,
and each operation returns the new state together with an `Except`-style
outcome mirroring Python exceptions.
-/

/-- Python exception kinds observable from the embedded code.
`fileNotFound` stands for FileNotFoundError (an OSError, the spec's
IOFailure family); `ioFailure` stands for a generic OSError raised by a
failing filesystem primitive such as rename; `keyError` is a missing
dictionary key (the spec's NotFound); `attributeError` is an attribute
access on an object lacking it (e.g. on None or on a str);
`valueError` mirrors Python ValueError. -/
inductive PyErr where
  | keyError
  | fileNotFound
  | ioFailure
  | attributeError
  | valueError
  deriving DecidableEq, Repr

/-- References encode the scheme and the nested path of a resource
(class Reference in the source). `path_components` is derived below. -/
structure Reference where
  scheme : String
  path : String
  deriving DecidableEq, Repr

/-- Splitting a character list on the slash character, matching Python
str.split: the empty string yields one empty component. -/
def splitSlash : List Char → List (List Char)
  | [] => [[]]
  | c :: rest =>
    if c = '/' then [] :: splitSlash rest
    else
      match splitSlash rest with
      | [] => [[c]]
      | h :: t => (c :: h) :: t

/-- Reference.path_components from the source: the path with leading
slashes stripped, split on slashes (never an empty list). -/
def Reference.path_components (r : Reference) : List String :=
  (splitSlash (r.path.data.dropWhile (fun c => c = '/'))).map List.asString

/-- Association list keyed by a decidable-equality key; the common
substrate for the in-memory dictionary store and the modelled
filesystem. -/
def aGet [DecidableEq κ] : List (κ × V) → κ → Option V
  | [], _ => none
  | (q, v) :: rest, k => if q = k then some v else aGet rest k

/-- Removal of every binding of a key (dict `del` / file unlink). -/
def aErase [DecidableEq κ] : List (κ × V) → κ → List (κ × V)
  | [], _ => []
  | (q, v) :: rest, k => if q = k then aErase rest k else (q, v) :: aErase rest k

/-- Overwriting update (dict assignment / whole-file write). -/
def aPut [DecidableEq κ] (l : List (κ × V)) (k : κ) (v : V) : List (κ × V) :=
  (k, v) :: aErase l k

theorem aGet_aPut_self [DecidableEq κ] (l : List (κ × V)) (k : κ) (v : V) :
    aGet (aPut l k v) k = some v := by
  simp [aPut, aGet]

theorem aGet_aPut_ne [DecidableEq κ] (l : List (κ × V)) (k k' : κ) (v : V)
    (h : k ≠ k') : aGet (aPut l k v) k' = aGet l k' := by
  induction l with
  | nil => simp [aPut, aGet, aErase, h]
  | cons p rest ih =>
    obtain ⟨q, w⟩ := p
    by_cases hq : q = k
    · subst hq
      simpa [aPut, aGet, aErase, h] using ih
    · by_cases hq' : q = k'
      · subst hq'
        simp [aPut, aGet, aErase, hq, h]
      · simpa [aPut, aGet, aErase, hq, hq', h] using ih

theorem aGet_aErase_self [DecidableEq κ] (l : List (κ × V)) (k : κ) :
    aGet (aErase l k) k = none := by
  induction l with
  | nil => simp [aErase, aGet]
  | cons p rest ih =>
    obtain ⟨q, w⟩ := p
    by_cases hq : q = k
    · simpa [aErase, hq] using ih
    · simpa [aErase, aGet, hq] using ih

theorem aGet_aErase_ne [DecidableEq κ] (l : List (κ × V)) (k k' : κ)
    (h : k ≠ k') : aGet (aErase l k) k' = aGet l k' := by
  induction l with
  | nil => simp [aErase]
  | cons p rest ih =>
    obtain ⟨q, w⟩ := p
    by_cases hq : q = k
    · subst hq
      simpa [aErase, aGet, h] using ih
    · by_cases hq' : q = k'
      · subst hq'
        simp [aErase, aGet, hq]
      · simpa [aErase, aGet, hq, hq'] using ih

theorem aErase_of_aGet_none [DecidableEq κ] (l : List (κ × V)) (k : κ)
    (h : aGet l k = none) : aErase l k = l := by
  induction l with
  | nil => simp [aErase]
  | cons p rest ih =>
    obtain ⟨q, w⟩ := p
    by_cases hq : q = k
    · simp [aGet, hq] at h
    · simp [aGet, hq] at h
      simp [aErase, hq, ih h]

/-- Key type of the in-memory store: the (scheme, path) pair. -/
abbrev SKey := String × String

/-- State of a DictStore: its backing Python dict, modelled as an
association list from (scheme, path) to the stored value. -/
abbrev Dict (V : Type) := List (SKey × V)

namespace DictStore

/-- DictStore.get: indexing the dict; a missing key raises KeyError. -/
def get (d : Dict V) (r : Reference) : Except PyErr V :=
  match aGet d (r.scheme, r.path) with
  | some v => .ok v
  | none => .error .keyError

/-- DictStore.put: dict assignment. -/
def put (d : Dict V) (r : Reference) (v : V) : Dict V :=
  aPut d (r.scheme, r.path) v

/-- DictStore.merge: identical to put in the source. -/
def merge (d : Dict V) (r : Reference) (v : V) : Dict V :=
  aPut d (r.scheme, r.path) v

/-- DictStore.delete_at: `del` wrapped in try/except-pass, hence a total
function that removes the key when present and does nothing otherwise. -/
def delete_at (d : Dict V) (r : Reference) : Dict V :=
  aErase d (r.scheme, r.path)

end DictStore

/-- Filesystem state for the disk stores: association list from a path
string (taken verbatim, no pathlib normalisation) to file content. -/
abbrev FS (α : Type) := List (String × α)

/-- Whole-file read: pathlib read_text / read_bytes without the error. -/
def fsRead (fs : FS α) (p : String) : Option α := aGet fs p

/-- Whole-file write (creates or overwrites). -/
def fsWrite (fs : FS α) (p : String) (v : α) : FS α := aPut fs p v

/-- File removal without the missing-file error. -/
def fsErase (fs : FS α) (p : String) : FS α := aErase fs p

/-- pathlib Path.unlink: removes the file, FileNotFoundError when the
file does not exist. -/
def fsUnlinkE (fs : FS α) (p : String) : Except PyErr (FS α) :=
  match fsRead fs p with
  | some _ => .ok (fsErase fs p)
  | none => .error .fileNotFound

/-- The characters of the literal suffix ".tmp". -/
def tmpChars : List Char := ['.', 't', 'm', 'p']

/-- Index of the last occurrence of a character in a list. -/
def lastIdxOf (c : Char) : List Char → Option Nat
  | [] => none
  | a :: rest =>
    match lastIdxOf c rest with
    | some i => some (i + 1)
    | none => if a = c then some 0 else none

/-- Position where pathlib's with_suffix cuts the path, if the final
component has a non-empty suffix: the last dot of the whole path,
provided it lies strictly inside the final component (after the last
slash, not the component's first character, not its last character).
Mirrors PurePath.suffix: `0 < name.rfind('.') < len(name) - 1`. -/
def tmpSplitIdx (l : List Char) : Option Nat :=
  let nameStart : Nat :=
    match lastIdxOf '/' l with
    | some k => k + 1
    | none => 0
  match lastIdxOf '.' l with
  | some i => if nameStart < i ∧ i + 1 < l.length then some i else none
  | none => none

/-- Character-level model of `target_path.with_suffix(".tmp")` from the
disk stores' put: replace the final component's suffix by ".tmp" when it
has one, else append ".tmp". -/
def withSuffixTmpL (l : List Char) : List Char :=
  match tmpSplitIdx l with
  | some i => l.take i ++ tmpChars
  | none => l ++ tmpChars

/-- String-level temporary path used by DiskStoreText.put and
DiskStoreBytes.put. -/
def withSuffixTmp (p : String) : String :=
  (withSuffixTmpL p.data).asString

/-- Boolean test: the path's final component already carries the ".tmp"
suffix (exactly the condition under which with_suffix leaves it fixed). -/
def hasTmpSuffix (p : String) : Bool :=
  match tmpSplitIdx p.data with
  | some i => decide (p.data.drop i = tmpChars)
  | none => false

/-- Atomic file store put for both variants (text: α = String, bytes:
α = byte list), a direct transcription of DiskStoreText.put /
DiskStoreBytes.put.  The payload is first written to the temporary
path; the prior target content is then staged; the rename step either
succeeds or fails according to `renameFails` (an environmental
failure), in which case the except-branch repair runs and the error is
re-raised.  The result pairs the final filesystem with `none` on
success or `some e` for the exception propagated to the caller. -/
def diskPut (fs : FS α) (path : String) (obj : α) (renameFails : Bool) :
    FS α × Option PyErr :=
  let temp := withSuffixTmp path
  let fs1 := fsWrite fs temp obj
  let old := fsRead fs1 path
  if renameFails then
    match old with
    | some d =>
      match fsUnlinkE fs1 path with
      | .error e => (fs1, some e)
      | .ok fs2 =>
        let fs3 := fsWrite fs2 path d
        match fsUnlinkE fs3 temp with
        | .error e => (fs3, some e)
        | .ok fs4 => (fs4, some .ioFailure)
    | none =>
      match fsUnlinkE fs1 temp with
      | .error e => (fs1, some e)
      | .ok fs2 => (fs2, some .ioFailure)
  else
    match fsRead fs1 temp with
    | some c => (fsWrite (fsErase fs1 temp) path c, none)
    | none => (fs1, some .fileNotFound)

/-- Disk store get: whole-file read, FileNotFoundError when missing. -/
def diskGet (fs : FS α) (p : String) : Except PyErr α :=
  match fsRead fs p with
  | some v => .ok v
  | none => .error .fileNotFound

/-- DiskStoreBase.delete_at: Path(ref.path).unlink(). -/
def diskDelete (fs : FS α) (p : String) : Except PyErr (FS α) :=
  fsUnlinkE fs p

/-- Pure-read store interface used for the round-trip claims: `get` has
no state effect (true of DictStore.get, the disk get and any mapping
combinator over them), `put` may fail and returns the new state. -/
structure StoreModel (σ V : Type) where
  get : σ → Reference → Except PyErr V
  put : σ → Reference → V → Except PyErr σ

/-- The in-memory store as a StoreModel. -/
def dictModel (V : Type) : StoreModel (Dict V) V where
  get := fun d r => DictStore.get d r
  put := fun d r v => .ok (DictStore.put d r v)

/-- The atomic file store as a StoreModel (normal operation: the rename
step succeeds). -/
def diskModel (α : Type) : StoreModel (FS α) α where
  get := fun fs r => diskGet fs r.path
  put := fun fs r v =>
    match diskPut fs r.path v false with
    | (fs1, none) => .ok fs1
    | (_, some e) => .error e

/-- Hook triple of BaseMappingStore: map_ref, map_to_store and
map_retrieved (the latter two may raise, e.g. a codec error). -/
structure MapHooks (V W : Type) where
  map_ref : Reference → Reference
  map_to_store : V → Reference → Except PyErr W
  map_retrieved : W → Reference → Except PyErr V

/-- BaseMappingStore over an inner store: get applies map_ref, delegates
and applies map_retrieved; put applies map_ref and map_to_store then
delegates. -/
def mappingModel (h : MapHooks V W) (inner : StoreModel σ W) : StoreModel σ V where
  get := fun s r =>
    match inner.get s (h.map_ref r) with
    | .ok w => h.map_retrieved w r
    | .error e => .error e
  put := fun s r v =>
    match h.map_to_store v r with
    | .ok w => inner.put s (h.map_ref r) w
    | .error e => .error e

/-- JSONStore's hooks: identity on the reference, json.dumps on the way
in, json.loads on the way out.  The json primitives are external
collaborators (the Python standard library), so they appear as
parameters. -/
def jsonHooks (dumps : J → String) (loads : String → Except PyErr J) :
    MapHooks J String where
  map_ref := fun r => r
  map_to_store := fun v _ => .ok (dumps v)
  map_retrieved := fun s _ => loads s

/-- Identity hooks (the BaseMappingStore defaults, which are no-ops). -/
def idHooks (V : Type) : MapHooks V V where
  map_ref := fun r => r
  map_to_store := fun v _ => .ok v
  map_retrieved := fun w _ => .ok w

/-- Round-trip property of a store model: a successful put followed by a
get at the same reference returns the value just stored. -/
def RoundTrip (m : StoreModel σ V) : Prop :=
  ∀ (s : σ) (r : Reference) (v : V) (s' : σ),
    m.put s r v = .ok s' → m.get s' r = .ok v

/-- Hook inverse property: decoding inverts encoding at every reference. -/
def HookInverse (h : MapHooks V W) : Prop :=
  ∀ (v : V) (r : Reference) (w : W),
    h.map_to_store v r = .ok w → h.map_retrieved w r = .ok v

theorem dictModel_roundTrip (V : Type) : RoundTrip (dictModel V) := by
  intro d r v d' hput
  simp only [dictModel] at hput
  cases hput
  simp [dictModel, DictStore.get, DictStore.put, aGet_aPut_self]

theorem diskPut_success (α : Type) (fs : FS α) (p : String) (v : α) :
    diskPut fs p v false =
      (fsWrite (fsErase (fsWrite fs (withSuffixTmp p) v) (withSuffixTmp p)) p v,
        none) := by
  unfold diskPut
  simp [fsRead, fsWrite, aGet_aPut_self]

theorem diskModel_roundTrip (α : Type) : RoundTrip (diskModel α) := by
  intro fs r v fs' hput
  simp only [diskModel, diskPut_success] at hput
  cases hput
  simp [diskModel, diskGet, fsRead, fsWrite, aGet_aPut_self]

theorem mappingModel_roundTrip (h : MapHooks V W) (inner : StoreModel σ W)
    (hinv : HookInverse h) (hrt : RoundTrip inner) :
    RoundTrip (mappingModel h inner) := by
  intro s r v s' hput
  simp only [mappingModel] at hput
  cases henc : h.map_to_store v r with
  | error e =>
    rw [henc] at hput
    exact absurd hput (by simp)
  | ok w =>
    rw [henc] at hput
    simp only [mappingModel]
    rw [hrt s (h.map_ref r) w s' hput]
    exact hinv v r w henc

/-- Reply of a Python get call on the cache side: a returned value
(possibly None, Python's absence marker) or a raised exception. -/
inductive CacheReply (V : Type) where
  | ret (v : Option V)
  | exn (e : PyErr)

/-- CacheStore.get: try the cache's get; a present (non-None) value is
returned at once; a None return or any exception falls through to the
base store's get, whose outcome (value or failure) is the result.  The
cache and base gets are state-passing functions so their own effects are
visible; CacheStore.get itself issues exactly one cache get and never a
cache put. -/
def CacheStore.get (cGet : σc → CacheReply V × σc)
    (bGet : σb → Except PyErr V × σb) (sc : σc) (sb : σb) :
    Except PyErr V × σc × σb :=
  match cGet sc with
  | (.ret (some v), sc') => (.ok v, sc', sb)
  | (.ret none, sc') =>
    let rb := bGet sb
    (rb.1, sc', rb.2)
  | (.exn _, sc') =>
    let rb := bGet sb
    (rb.1, sc', rb.2)

/-- Reified operation record (class RestOperation): a verb string and
the reference it concerns. -/
structure RestOperation where
  operation : String
  ref : Reference
  deriving Repr

/-- Mutating-store interface used by the Copier filter's target. -/
structure WStore (σ V : Type) where
  put : σ → Reference → V → Except PyErr σ
  merge : σ → Reference → V → Except PyErr σ
  delete_at : σ → Reference → Except PyErr σ

/-- Copier.write, transcribed with the source's exact branch structure:
the outer condition splits on the verb being "GET" or not; inside the
non-GET branch an if/elif chain handles PUT, MERGE and DELETE and has no
final else, so any other verb falls through with no effect; the outer
else (the raise of ValueError) is unreachable because the two outer
conditions are exhaustive.  `srcGet` is the source store's get, `tgt`
the target store, `st` the target store's state. -/
def Copier.write (srcGet : Reference → Except PyErr V) (tgt : WStore σ V)
    (st : σ) (op : RestOperation) : Except PyErr σ :=
  if op.operation ≠ "GET" then
    if op.operation = "PUT" then
      match srcGet op.ref with
      | .ok v => tgt.put st op.ref v
      | .error e => .error e
    else if op.operation = "MERGE" then
      match srcGet op.ref with
      | .ok v => tgt.merge st op.ref v
      | .error e => .error e
    else if op.operation = "DELETE" then
      tgt.delete_at st op.ref
    else
      .ok st
  else if op.operation = "GET" then
    .ok st
  else
    .error .valueError

/-- DictStore as a Copier target. -/
def dictWStore (V : Type) : WStore (Dict V) V where
  put := fun d r v => .ok (DictStore.put d r v)
  merge := fun d r v => .ok (DictStore.merge d r v)
  delete_at := fun d r => .ok (DictStore.delete_at d r)

/-- Stateful target-store interface wrapped by LoggingStore: get may
both fail and have effects. -/
structure TStore (σ V : Type) where
  get : σ → Reference → Except PyErr (V × σ)
  put : σ → Reference → V → Except PyErr σ
  merge : σ → Reference → V → Except PyErr σ
  delete_at : σ → Reference → Except PyErr σ

/-- DictStore as a LoggingStore target. -/
def dictTStore (V : Type) : TStore (Dict V) V where
  get := fun d r => (DictStore.get d r).map (fun v => (v, d))
  put := fun d r v => .ok (DictStore.put d r v)
  merge := fun d r v => .ok (DictStore.merge d r v)
  delete_at := fun d r => .ok (DictStore.delete_at d r)

namespace LoggingStore

/-- LoggingStore.get: run the target's get; only if it succeeds,
construct the GET operation record and invoke the filter.  The second
component of the result is the list of records handed to the filter
(empty exactly when the filter was never invoked). -/
def get (t : TStore σ V) (fw : φ → RestOperation → Except PyErr φ)
    (s : σ) (f : φ) (r : Reference) :
    Except PyErr (V × σ × φ) × List RestOperation :=
  match t.get s r with
  | .error e => (.error e, [])
  | .ok (v, s') =>
    let op : RestOperation := ⟨"GET", r⟩
    match fw f op with
    | .error e => (.error e, [op])
    | .ok f' => (.ok (v, s', f'), [op])

/-- LoggingStore.put: target put first, then the PUT record to the
filter. -/
def put (t : TStore σ V) (fw : φ → RestOperation → Except PyErr φ)
    (s : σ) (f : φ) (r : Reference) (v : V) :
    Except PyErr (σ × φ) × List RestOperation :=
  match t.put s r v with
  | .error e => (.error e, [])
  | .ok s' =>
    let op : RestOperation := ⟨"PUT", r⟩
    match fw f op with
    | .error e => (.error e, [op])
    | .ok f' => (.ok (s', f'), [op])

/-- LoggingStore.merge: target merge first, then the MERGE record. -/
def merge (t : TStore σ V) (fw : φ → RestOperation → Except PyErr φ)
    (s : σ) (f : φ) (r : Reference) (v : V) :
    Except PyErr (σ × φ) × List RestOperation :=
  match t.merge s r v with
  | .error e => (.error e, [])
  | .ok s' =>
    let op : RestOperation := ⟨"MERGE", r⟩
    match fw f op with
    | .error e => (.error e, [op])
    | .ok f' => (.ok (s', f'), [op])

/-- LoggingStore.delete_at: target delete first, then the DELETE
record. -/
def delete_at (t : TStore σ V) (fw : φ → RestOperation → Except PyErr φ)
    (s : σ) (f : φ) (r : Reference) :
    Except PyErr (σ × φ) × List RestOperation :=
  match t.delete_at s r with
  | .error e => (.error e, [])
  | .ok s' =>
    let op : RestOperation := ⟨"DELETE", r⟩
    match fw f op with
    | .error e => (.error e, [op])
    | .ok f' => (.ok (s', f'), [op])

end LoggingStore

namespace LoggingCopier

/-- put through a LoggingStore whose target is DictStore D and whose
filter is a Copier with source aliased to that same D and target a
DictStore X: first the target put runs, then Copier.write receives the
PUT record and re-reads the just-written value from D to write it to X.
Result: the two final dictionary states. -/
def put (D X : Dict V) (r : Reference) (v : V) :
    Except PyErr (Dict V × Dict V) :=
  let D1 := DictStore.put D r v
  match Copier.write (fun rr => DictStore.get D1 rr) (dictWStore V) X ⟨"PUT", r⟩ with
  | .ok X1 => .ok (D1, X1)
  | .error e => .error e

/-- get through the same stack: the target get runs (raising KeyError on
a missing key, in which case the filter is never reached), then
Copier.write receives the GET record, which it ignores. -/
def get (D X : Dict V) (r : Reference) :
    Except PyErr (V × Dict V × Dict V) :=
  match DictStore.get D r with
  | .error e => .error e
  | .ok v =>
    match Copier.write (fun rr => DictStore.get D rr) (dictWStore V) X ⟨"GET", r⟩ with
    | .ok X1 => .ok (v, D, X1)
    | .error e => .error e

end LoggingCopier

/-- Python value passed as the lookup argument of a store get: either a
Reference object or a plain string (as produced by
reference_switch_logic).  Attribute access `.scheme` / `.path` on a
string raises AttributeError. -/
inductive PyObjKey where
  | ref (r : Reference)
  | str (s : String)

/-- DictStore.get under Python duck typing: it builds the tuple
(arg.scheme, arg.path), so a plain-string argument raises
AttributeError before any table lookup. -/
def DictStore.getObj (d : Dict V) (k : PyObjKey) : Except PyErr V :=
  match k with
  | .ref r => DictStore.get d r
  | .str _ => .error .attributeError

namespace Switch

/-- Switch.backing_store: the property body evaluates
self._backing_storage as a bare expression and has no return statement,
so the property yields None regardless of the stored router. -/
def backing_store (_backing : ρ) : Option ρ := none

end Switch

namespace FirstPathSwitch

/-- FirstPathSwitch.store_for_ref: the routing key is
ref.path_components[0]; the router is fetched through the inherited
Switch.backing_store property (which yields None), and `.get` is then
invoked on it. -/
def store_for_ref (router : Dict S) (r : Reference) : Except PyErr S :=
  let key := (Reference.path_components r).headD ""
  match Switch.backing_store router with
  | some b => DictStore.getObj b (PyObjKey.str key)
  | none => .error .attributeError

/-- FirstPathSwitch.get: resolve the store for the reference, then
delegate the get to it. -/
def get (router : Dict S) (opGet : S → Reference → Except PyErr V)
    (r : Reference) : Except PyErr V :=
  match store_for_ref router r with
  | .ok s => opGet s r
  | .error e => .error e

end FirstPathSwitch

namespace SchemeSwitch

/-- SchemeSwitch.store_for_ref: the overridden backing_store property
does return the router, and DictStore.get is then called with the plain
scheme string as its argument. -/
def store_for_ref (router : Dict S) (r : Reference) : Except PyErr S :=
  DictStore.getObj router (PyObjKey.str r.scheme)

/-- SchemeSwitch.get: resolve the store for the reference, then delegate
the get to it. -/
def get (router : Dict S) (opGet : S → Reference → Except PyErr V)
    (r : Reference) : Except PyErr V :=
  match store_for_ref router r with
  | .ok s => opGet s r
  | .error e => .error e

end SchemeSwitch

theorem withSuffixTmpL_eq_self_iff (l : List Char) :
    withSuffixTmpL l = l ↔ ∃ i, tmpSplitIdx l = some i ∧ l.drop i = tmpChars := by
  unfold withSuffixTmpL
  cases h : tmpSplitIdx l with
  | none =>
    simp only [h]
    constructor
    · intro he
      exfalso
      have hlen := congrArg List.length he
      simp [tmpChars] at hlen
    · rintro ⟨i, hi, -⟩
      exact absurd hi (by simp)
  | some i =>
    simp only [h, Option.some.injEq]
    constructor
    · intro he
      refine ⟨i, rfl, ?_⟩
      have h2 : l.take i ++ tmpChars = l.take i ++ l.drop i := by
        rw [he, List.take_append_drop]
      exact (List.append_cancel_left h2).symm
    · rintro ⟨j, hj, hd⟩
      cases hj
      calc l.take i ++ tmpChars = l.take i ++ l.drop i := by rw [hd]
        _ = l := List.take_append_drop i l

/-- C4 counterexample: the claim that the temporary file never coincides
with a target file is false: for the reference path "a.tmp" the
temporary path equals the target path itself, and the temporary path of
"a.txt" equals the target path "a.tmp" of a distinct reference. -/
theorem withSuffixTmp_collision_cex :
    withSuffixTmp "a.tmp" = "a.tmp" ∧ withSuffixTmp "a.txt" = "a.tmp" := by
  constructor <;> decide

/-- C4 (amended): put writes the payload to the temporary path obtained
by replacing the final component's suffix with ".tmp" (appending it
when there is no suffix); this temporary path equals the target path
exactly when the final component already carries the ".tmp" suffix, and
is distinct from the target for every other reference.  (It can still
coincide with the target path of a different reference.) -/
theorem withSuffixTmp_eq_self_iff (p : String) :
    withSuffixTmp p = p ↔ hasTmpSuffix p = true := by
  obtain ⟨l⟩ := p
  have hdata : (String.mk l).data = l := rfl
  constructor
  · intro he
    have hl : withSuffixTmpL l = l := by
      have := congrArg String.data he
      simpa [withSuffixTmp, List.asString, hdata] using this
    obtain ⟨i, hi, hd⟩ := (withSuffixTmpL_eq_self_iff l).mp hl
    simp [hasTmpSuffix, hdata, hi, hd]
  · intro hs
    have : ∃ i, tmpSplitIdx l = some i ∧ l.drop i = tmpChars := by
      simp only [hasTmpSuffix, hdata] at hs
      cases h : tmpSplitIdx l with
      | none => rw [h] at hs; exact absurd hs (by simp)
      | some i =>
        rw [h] at hs
        exact ⟨i, rfl, by simpa using hs⟩
    have hl := (withSuffixTmpL_eq_self_iff l).mpr this
    show (withSuffixTmpL ((String.mk l).data)).asString = String.mk l
    rw [hdata, hl]
    rfl

theorem diskPut_renameFail_eq {α : Type} (fs : FS α) (path : String)
    (obj d : α) (hne : withSuffixTmp path ≠ path)
    (hprior : fsRead fs path = some d) :
    diskPut fs path obj true =
      (fsErase (fsWrite (fsErase (fsWrite fs (withSuffixTmp path) obj) path) path d)
         (withSuffixTmp path), some PyErr.ioFailure) := by
  have h1 : fsRead (fsWrite fs (withSuffixTmp path) obj) path = some d := by
    simp only [fsRead, fsWrite]
    rw [aGet_aPut_ne fs (withSuffixTmp path) path obj hne]
    exact hprior
  have h2 : fsRead (fsWrite (fsErase (fsWrite fs (withSuffixTmp path) obj) path)
      path d) (withSuffixTmp path) = some obj := by
    simp only [fsRead, fsWrite, fsErase]
    rw [aGet_aPut_ne _ path (withSuffixTmp path) d (Ne.symm hne),
      aGet_aErase_ne _ path (withSuffixTmp path) (Ne.symm hne)]
    exact aGet_aPut_self fs (withSuffixTmp path) obj
  unfold diskPut
  simp [h1, h2, fsUnlinkE]

/-- C1 (amended): for the atomic file store (both variants, the content
type being a parameter), if the rename step of put fails after a prior
value existed at the target path, and the reference's temporary path is
distinct from its target path (that is, the path's final component does
not already carry the ".tmp" suffix), then the put re-raises the
failure, the target path holds exactly the prior content, no temporary
file remains, and a subsequent get returns the prior value. -/
theorem diskPut_renameFail_rollback {α : Type} (fs : FS α) (path : String)
    (obj d : α) (hne : withSuffixTmp path ≠ path)
    (hprior : fsRead fs path = some d) :
    (diskPut fs path obj true).2 = some PyErr.ioFailure ∧
    fsRead (diskPut fs path obj true).1 path = some d ∧
    fsRead (diskPut fs path obj true).1 (withSuffixTmp path) = none ∧
    diskGet (diskPut fs path obj true).1 path = .ok d := by
  rw [diskPut_renameFail_eq fs path obj d hne hprior]
  have hr : fsRead (fsErase (fsWrite (fsErase (fsWrite fs (withSuffixTmp path) obj)
      path) path d) (withSuffixTmp path)) path = some d := by
    simp only [fsRead, fsErase, fsWrite]
    rw [aGet_aErase_ne _ (withSuffixTmp path) path hne]
    exact aGet_aPut_self _ path d
  refine ⟨rfl, hr, ?_, ?_⟩
  · simp only [fsRead, fsErase]
    exact aGet_aErase_self _ (withSuffixTmp path)
  · simp only [diskGet, hr]

/-- C1 witness: a concrete run on the text variant with target "a.txt"
holding "old": the failed put re-raises, "a.txt" still holds "old", the
temporary file "a.tmp" is gone, and get returns "old". -/
theorem diskPut_renameFail_rollback_witness :
    withSuffixTmp "a.txt" ≠ "a.txt" ∧
    fsRead ([("a.txt", "old")] : FS String) "a.txt" = some "old" ∧
    ((diskPut ([("a.txt", "old")] : FS String) "a.txt" "new" true).2 =
        some PyErr.ioFailure ∧
      fsRead (diskPut ([("a.txt", "old")] : FS String) "a.txt" "new" true).1
        "a.txt" = some "old" ∧
      fsRead (diskPut ([("a.txt", "old")] : FS String) "a.txt" "new" true).1
        (withSuffixTmp "a.txt") = none ∧
      diskGet (diskPut ([("a.txt", "old")] : FS String) "a.txt" "new" true).1
        "a.txt" = .ok "old") :=
  ⟨by decide, rfl,
    diskPut_renameFail_rollback [("a.txt", "old")] "a.txt" "new" "old"
      (by decide) rfl⟩

/-- C1 counterexample: for the reference path "a.tmp" (whose temporary
path coincides with the target), a prior value "old" existed and the
rename step fails, yet afterwards the target path holds nothing at all
(the prior content is lost and the file is missing), contradicting the
claim as stated. -/
theorem diskPut_renameFail_cex :
    fsRead ([("a.tmp", "old")] : FS String) "a.tmp" = some "old" ∧
    (diskPut ([("a.tmp", "old")] : FS String) "a.tmp" "new" true).2 =
      some PyErr.ioFailure ∧
    fsRead (diskPut ([("a.tmp", "old")] : FS String) "a.tmp" "new" true).1
      "a.tmp" = none := by
  refine ⟨rfl, ?_, ?_⟩ <;> decide

/-- C2 (code evaluated at the failing input): Copier.write, given an
operation record whose verb is outside GET, PUT, MERGE and DELETE,
returns silently with no store effect — the source's raise branch is
unreachable, contradicting the claim (and the function's own
docstring), which promise an UnsupportedOperation/ValueError. -/
theorem copierWrite_unknown_verb_silent {σ V : Type}
    (srcGet : Reference → Except PyErr V) (tgt : WStore σ V) (st : σ)
    (r : Reference) :
    Copier.write srcGet tgt st ⟨"PATCH", r⟩ = .ok st := by
  simp [Copier.write]

/-- C3 (code evaluated at the failing input): every FirstPathSwitch
operation raises AttributeError instead of delegating, because the
inherited backing_store property returns None (its body lacks a return
statement), and `.get` is then invoked on None.  The routing key is
computed, but no store lookup or delegation ever happens. -/
theorem firstPathSwitch_get_attributeError {S V : Type} (router : Dict S)
    (opGet : S → Reference → Except PyErr V) (r : Reference) :
    FirstPathSwitch.store_for_ref router r = .error .attributeError ∧
    FirstPathSwitch.get router opGet r = .error .attributeError := by
  constructor <;>
    simp [FirstPathSwitch.get, FirstPathSwitch.store_for_ref,
      Switch.backing_store]

/-- C5 (code evaluated at the failing input): every SchemeSwitch
operation over a DictStore router table raises AttributeError, because
store_for_ref passes the plain scheme string to DictStore.get, which
accesses `.scheme` on it.  No delegation to any registered store, and
no NotFound for unregistered schemes, can ever occur. -/
theorem schemeSwitch_get_attributeError {S V : Type} (router : Dict S)
    (opGet : S → Reference → Except PyErr V) (r : Reference) :
    SchemeSwitch.store_for_ref router r = .error .attributeError ∧
    SchemeSwitch.get router opGet r = .error .attributeError := by
  constructor <;>
    simp [SchemeSwitch.get, SchemeSwitch.store_for_ref, DictStore.getObj]

/-- C6: the cache combinator's get returns a present cache value
immediately; on a None return or any cache exception it returns exactly
the base store's outcome (base failures included, cache failures never
surfaced); and the final cache state is exactly the state after the
cache's own get — the fetched value is never written back (no
read-through population). -/
theorem cacheStore_get_spec {σc σb V : Type}
    (cGet : σc → CacheReply V × σc) (bGet : σb → Except PyErr V × σb)
    (sc : σc) (sb : σb) :
    (∀ v sc', cGet sc = (.ret (some v), sc') →
      CacheStore.get cGet bGet sc sb = (.ok v, sc', sb)) ∧
    (∀ sc', (cGet sc = (.ret none, sc') ∨ ∃ e, cGet sc = (.exn e, sc')) →
      CacheStore.get cGet bGet sc sb = ((bGet sb).1, sc', (bGet sb).2)) ∧
    (CacheStore.get cGet bGet sc sb).2.1 = (cGet sc).2 := by
  refine ⟨?_, ?_, ?_⟩
  · intro v sc' hv
    simp [CacheStore.get, hv]
  · intro sc' hor
    rcases hor with h0 | ⟨e, he⟩
    · simp [CacheStore.get, h0]
    · simp [CacheStore.get, he]
  · rcases hc : cGet sc with ⟨rep, sc1⟩
    rcases rep with v | e
    · rcases v with _ | v <;> simp [CacheStore.get, hc]
    · simp [CacheStore.get, hc]

/-- C6 witness: with a cache whose get returns None and a base whose get
returns 7, the combinator's get returns 7 and leaves the (trivial)
cache state alone. -/
theorem cacheStore_get_spec_witness :
    CacheStore.get (fun s : Nat => (CacheReply.ret (none : Option Nat), s))
      (fun s : Nat => (Except.ok 7, s)) 0 0 = (Except.ok 7, 0, 0) :=
  (cacheStore_get_spec (fun s : Nat => (CacheReply.ret (none : Option Nat), s))
    (fun s : Nat => (Except.ok 7, s)) 0 0).2.1 0 (Or.inl rfl)

/-- C7: round trip — put followed by get at the same reference returns
the value just stored — for the in-memory store, the atomic file store
(either content type) and any mapping-combinator stack over a
round-tripping inner store whose hooks decode what they encode; in
particular for the JSON codec over the in-memory store, given that the
external json primitives invert each other. -/
theorem storage_roundTrip (V W α J : Type) (σ : Type) (h : MapHooks V W)
    (inner : StoreModel σ W) (dumps : J → String)
    (loads : String → Except PyErr J) (hinv : HookInverse h)
    (hrt : RoundTrip inner) (hjson : ∀ v, loads (dumps v) = .ok v) :
    RoundTrip (dictModel V) ∧ RoundTrip (diskModel α) ∧
    RoundTrip (mappingModel h inner) ∧
    RoundTrip (mappingModel (jsonHooks dumps loads) (dictModel String)) := by
  refine ⟨dictModel_roundTrip V, diskModel_roundTrip α,
    mappingModel_roundTrip h inner hinv hrt,
    mappingModel_roundTrip (jsonHooks dumps loads) (dictModel String) ?_
      (dictModel_roundTrip String)⟩
  intro v r w hw
  simp only [jsonHooks] at hw ⊢
  cases hw
  exact hjson v

/-- C7 witness: the identity codec (the BaseMappingStore defaults) over
the in-memory string store, and an injective toy json pair. -/
theorem storage_roundTrip_witness :
    RoundTrip (dictModel String) ∧ RoundTrip (diskModel String) ∧
    RoundTrip (mappingModel (idHooks String) (dictModel String)) ∧
    RoundTrip (mappingModel (jsonHooks id Except.ok) (dictModel String)) :=
  storage_roundTrip String String String String (Dict String)
    (idHooks String) (dictModel String) id Except.ok
    (fun v r w hw => by cases hw; rfl)
    (dictModel_roundTrip String) (fun v => rfl)

/-- C8: a put through a LoggingStore over DictStore D, filtered by a
Copier whose source is that same D and whose target is DictStore X,
ends with the value stored in both D and X, so X's get returns it; and
a get through the same stack returns D's outcome with both states
unchanged — no write to X ever happens on get. -/
theorem loggingCopier_replication {V : Type} (D X : Dict V) (r : Reference)
    (v : V) :
    LoggingCopier.put D X r v = .ok (DictStore.put D r v, DictStore.put X r v) ∧
    DictStore.get (DictStore.put X r v) r = .ok v ∧
    LoggingCopier.get D X r =
      (match DictStore.get D r with
       | .ok w => .ok (w, D, X)
       | .error e => .error e) := by
  have hsrc : DictStore.get (DictStore.put D r v) r = .ok v := by
    simp [DictStore.get, DictStore.put, aGet_aPut_self]
  refine ⟨?_, ?_, ?_⟩
  · simp [LoggingCopier.put, Copier.write, hsrc, dictWStore]
  · simp [DictStore.get, DictStore.put, aGet_aPut_self]
  · cases hg : DictStore.get D r <;>
      simp [LoggingCopier.get, Copier.write, hg, dictWStore]

/-- C9: deleting a missing key is a silent no-op on the in-memory store
(the state is returned unchanged, no error) and raises
FileNotFoundError — an OSError, the spec's IOFailure — on the atomic
file store, for every missing key. -/
theorem delete_missing_asymmetry {V α : Type} (d : Dict V) (fs : FS α)
    (r : Reference) (hd : aGet d (r.scheme, r.path) = none)
    (hf : fsRead fs r.path = none) :
    DictStore.delete_at d r = d ∧
    diskDelete fs r.path = .error .fileNotFound := by
  constructor
  · exact aErase_of_aGet_none d _ hd
  · simp [diskDelete, fsUnlinkE, hf]

/-- C9 witness: the empty in-memory store and the empty filesystem at a
concrete reference. -/
theorem delete_missing_asymmetry_witness :
    DictStore.delete_at ([] : Dict Nat) ⟨"scheme", "p"⟩ = [] ∧
    diskDelete ([] : FS Nat) "p" = .error .fileNotFound :=
  delete_missing_asymmetry [] [] ⟨"scheme", "p"⟩ rfl rfl

/-- C10: for each of the four LoggingStore operations, if the wrapped
target store's operation raises, the error propagates unchanged and the
filter receives no operation record at all; the filter runs only after
the target operation succeeds. -/
theorem loggingStore_filter_after_success {σ V φ : Type} (t : TStore σ V)
    (fw : φ → RestOperation → Except PyErr φ) (s : σ) (f : φ)
    (r : Reference) (v : V) (e : PyErr) :
    (t.get s r = .error e → LoggingStore.get t fw s f r = (.error e, [])) ∧
    (t.put s r v = .error e → LoggingStore.put t fw s f r v = (.error e, [])) ∧
    (t.merge s r v = .error e →
      LoggingStore.merge t fw s f r v = (.error e, [])) ∧
    (t.delete_at s r = .error e →
      LoggingStore.delete_at t fw s f r = (.error e, [])) := by
  refine ⟨?_, ?_, ?_, ?_⟩ <;> intro h
  · simp [LoggingStore.get, h]
  · simp [LoggingStore.put, h]
  · simp [LoggingStore.merge, h]
  · simp [LoggingStore.delete_at, h]

/-- C10 witness: the DictStore target on the empty dictionary raises
KeyError on get, which propagates with an empty filter trace. -/
theorem loggingStore_filter_after_success_witness :
    LoggingStore.get (dictTStore Nat) (fun f _ => Except.ok f) [] ()
      ⟨"a", "b"⟩ = (Except.error PyErr.keyError, []) :=
  (loggingStore_filter_after_success (dictTStore Nat)
    (fun f _ => Except.ok f) [] () ⟨"a", "b"⟩ 0 PyErr.keyError).1 rfl
